import Mathlib

set_option maxHeartbeats 1000000

namespace PyGen

/-- Modelled from the spec: the exception taxonomy of ExceptionRecord
(spec section 3); the generator-interpreter core itself is absent from the
repository sources, so the data model follows the specification text. -/
inductive ExcKind where
  | stopIteration
  | generatorExit
  | valueError
  | runtimeError
  | keyError
  | typeError
  | userError (n : Nat)
deriving DecidableEq, Repr, BEq

/-- Modelled from the spec: ExceptionRecord with an identity (for the
"same exception object" test), a kind, and a context chain (spec section
3); the chain is stored flattened as the list of (identity, kind) pairs of
the successive context links, the head being the immediate context. -/
structure Exc where
  eid : Nat
  kind : ExcKind
  chain : List (Nat × ExcKind)
deriving DecidableEq, Repr

/-- The immediate context link of an exception, reconstructed from the
flattened chain. -/
def Exc.ctx (e : Exc) : Option Exc :=
  match e.chain with
  | [] => none
  | (i, k) :: rest => some ⟨i, k, rest⟩

/-- Replace the context link of an exception by a given exception. -/
def Exc.setCtx (e : Exc) (h : Exc) : Exc :=
  { e with chain := (h.eid, h.kind) :: h.chain }

def mkExc (i : Nat) (k : ExcKind) : Exc := ⟨i, k, []⟩

/-- Modelled from the spec: a SideEffectLogEntry records a mutation of a
captured cell, with the ordinal given by the position in the log
(spec section 3). -/
structure SEEntry where
  target : Nat
  prior : Int
  newVal : Int
deriving DecidableEq, Repr

/-- Modelled from the spec: the shared mutable state visible to a generator
frame: captured variable cells, the append-only side-effect log, an event
trace used to observe ordering of cleanup actions, the stack of
currently-handled exceptions, and a counter supplying fresh exception
identities. -/
structure St where
  cells : List Int
  selog : List SEEntry
  events : List Int
  handling : List Exc
  nextEid : Nat
deriving DecidableEq, Repr

def mkSt (cs : List Int) : St :=
  { cells := cs, selog := [], events := [], handling := [], nextEid := 0 }

def St.getCell (s : St) (i : Nat) : Int := s.cells.getD i 0

def St.setCell (s : St) (i : Nat) (v : Int) : St :=
  { s with cells := s.cells.set i v,
           selog := s.selog ++ [⟨i, s.getCell i, v⟩] }

def St.emitEv (s : St) (t : Int) : St := { s with events := s.events ++ [t] }

def St.pushH (s : St) (e : Exc) : St := { s with handling := e :: s.handling }

def St.popH (s : St) : St := { s with handling := s.handling.tail }

/-- Chain a newly-raised exception onto the exception currently being
handled, unless the two are the same object, in which case the context link
is omitted to avoid a self-referential cycle (spec sections 3 and 4.4). -/
def chainWith (e : Exc) (h : Exc) : Exc :=
  if e.eid = h.eid then e else e.setCtx h

def chainCtx (e : Exc) (s : St) : Exc :=
  match s.handling.head? with
  | none => e
  | some h => chainWith e h

/-- True when the top-level context link of an exception points back to the
exception itself (the cycle the chain invariant of spec section 3 forbids). -/
def selfCtx (e : Exc) : Bool :=
  match e.ctx with
  | some c => c.eid == e.eid
  | none => false

/-- How a suspended frame is resumed: a plain advance, or an exception
injected at the suspension point (spec section 4.1). -/
inductive Resume where
  | nxt
  | thr (e : Exc)

/-- How a block of instructions finished executing when it did not raise:
by falling through normally or by an explicit return. -/
inductive Outcome where
  | normal
  | returned (v : Option Int)
deriving DecidableEq, Repr

def outcomeVal : Outcome → Option Int
  | .normal => none
  | .returned v => v

/-- Modelled from the spec: the StepResult of advancing a frame
(spec section 4.1), presented as a resumption: the frame either finished
(done), raised, or yielded a value together with the continuation awaiting
the next resume. -/
inductive Res where
  | done (s : St) (o : Outcome)
  | raised (s : St) (e : Exc)
  | yld (s : St) (v : Int) (k : Resume → St → Res)

/-- Run a second computation after the first completes normally; an
explicit return or a raise short-circuits. -/
def Res.seqWith : Res → (St → Res) → Res
  | .done s o, f =>
    match o with
    | .normal => f s
    | .returned v => .done s (.returned v)
  | .raised s e, _ => .raised s e
  | .yld s v k, f => .yld s v (fun r s2 => Res.seqWith (k r s2) f)

/-- Wrap a try-body resumption with an exception dispatcher: exceptions
escaping the body (also after later resumptions) are given to the
dispatcher; normal completion passes through. -/
def Res.catchWith (d : Exc → St → Res) : Res → Res
  | .done s o => .done s o
  | .raised s e => d e s
  | .yld s v k => .yld s v (fun r s2 => Res.catchWith d (k r s2))

/-- After a finally-block resumption completes, deliver the original
outcome or re-raise the original exception; a return or raise from the
finally block itself takes precedence. -/
def Res.seqFin : Res → Outcome ⊕ Exc → Res
  | .done s o2, orig =>
    match o2 with
    | .normal =>
      match orig with
      | .inl o => .done s o
      | .inr e => .raised s e
    | .returned v => .done s (.returned v)
  | .raised s e2, _ => .raised s e2
  | .yld s v k, orig => .yld s v (fun r s2 => Res.seqFin (k r s2) orig)

/-- Wrap a protected resumption so that a finally block runs exactly once,
whichever way control leaves the protected region (spec section 4.4). -/
def Res.finWith (f : St → Res) : Res → Res
  | .done s o => Res.seqFin (f s) (.inl o)
  | .raised s e => Res.seqFin (f s) (.inr e)
  | .yld s v k => .yld s v (fun r s2 => Res.finWith f (k r s2))

/-- After a delegate was sent a GeneratorExit and ran to completion, the
exit exception is re-raised in the outer frame so the outer cleanup also
runs (spec sections 4.2 and 4.3). -/
def Res.afterExit (e : Exc) : Res → Res
  | .done s _ => .raised s e
  | .raised s e2 => .raised s e2
  | .yld s v k => .yld s v (fun r s2 => Res.afterExit e (k r s2))

/-- When the resume that was forwarded into a delegate carried a
GeneratorExit, the delegation does not survive it: once the delegate has
finished, the exit is re-raised in the outer frame. -/
def exitWrap (r : Resume) (x : Res) : Res :=
  match r with
  | .nxt => x
  | .thr e => if e.kind = .generatorExit then Res.afterExit e x else x

/-- Modelled from the spec: sub-generator delegation (spec section 4.3).
Values yielded by the delegate are re-exposed directly; every resume is
forwarded to the delegate first, so on a thrown GeneratorExit the
delegate finishes (its finally blocks run) before the exit resumes in the
outer frame. -/
def Res.delegate : Res → Res
  | .done s _ => .done s .normal
  | .raised s e => .raised s e
  | .yld s v k => .yld s v (fun r s2 => exitWrap r (Res.delegate (k r s2)))

/-- Pop the currently-handled exception once the except-clause body has
finished, whichever way it finished. -/
def Res.popAfter : Res → Res
  | .done s o => .done s.popH o
  | .raised s e => .raised s.popH e
  | .yld s v k => .yld s v (fun r s2 => Res.popAfter (k r s2))

/-- Which exceptions an except clause handles: one specific kind, or every
kind except GeneratorExit (the analogue of `except Exception`, which does
not catch GeneratorExit). -/
inductive HKind where
  | exactK (k : ExcKind)
  | anyExc
deriving DecidableEq, Repr

def hMatch : HKind → ExcKind → Bool
  | .exactK k, k2 => k == k2
  | .anyExc, k2 => k2 != .generatorExit

mutual

/-- Modelled from the spec: the sequential instruction stream a generator
body consists of, with explicit yield points, captured-cell mutations,
raises, structured try/except/finally regions, and sub-generator
delegation (spec sections 2, 4.1, 4.3, 4.4). -/
inductive Stmt where
  | skip
  | seq (a b : Stmt)
  | yieldV (v : Int)
  | retV (v : Option Int)
  | incr (c : Nat) (d : Int)
  | setC (c : Nat) (v : Int)
  | emit (t : Int)
  | raiseNew (k : ExcKind)
  | raiseObj (e : Exc)
  | reraise
  | storeCycle (c : Nat)
  | tryCF (body : Stmt) (hs : Handlers) (fin : Stmt)
  | yieldFrom (sub : Stmt)

/-- The except clauses of a try region, in order. -/
inductive Handlers where
  | hnil
  | hcons (k : HKind) (body : Stmt) (rest : Handlers)

end

mutual

/-- Modelled from the spec: advancing a frame executes instructions until a
yield point, a return, or an unhandled exception (spec section 4.1);
mutations to captured cells are appended to the side-effect log as they
occur; raising chains the new exception onto the currently-handled one
unless that would create a self-referential cycle (spec sections 3, 4.4). -/
def runStmt : Stmt → St → Res
  | .skip, s => .done s .normal
  | .seq a b, s => Res.seqWith (runStmt a s) (fun s2 => runStmt b s2)
  | .yieldV v, s =>
    .yld s v (fun r s2 =>
      match r with
      | .nxt => .done s2 .normal
      | .thr e => .raised s2 (chainCtx e s2))
  | .retV v, s => .done s (.returned v)
  | .incr c d, s => .done (s.setCell c (s.getCell c + d)) .normal
  | .setC c v, s => .done (s.setCell c v) .normal
  | .emit t, s => .done (s.emitEv t) .normal
  | .raiseNew k, s =>
    let e := mkExc s.nextEid k
    let s1 := { s with nextEid := s.nextEid + 1 }
    .raised s1 (chainCtx e s1)
  | .raiseObj e, s => .raised s (chainCtx e s)
  | .reraise, s =>
    match s.handling.head? with
    | some h => .raised s h
    | none => .raised s (mkExc s.nextEid .runtimeError)
  | .storeCycle c, s =>
    match s.handling.head? with
    | some h => .done (s.setCell c (if selfCtx h then 1 else 0)) .normal
    | none => .done (s.setCell c (-1)) .normal
  | .tryCF body hs fin, s =>
    Res.finWith (fun s2 => runStmt fin s2)
      (Res.catchWith (fun e s2 => dispatchH hs e s2) (runStmt body s))
  | .yieldFrom sub, s => Res.delegate (runStmt sub s)

/-- Find the first except clause matching a raised exception and run its
body with the exception pushed as currently handled; if none matches the
exception keeps propagating (spec section 4.4). -/
def dispatchH : Handlers → Exc → St → Res
  | .hnil, e, s => .raised s e
  | .hcons k hb rest, e, s =>
    if hMatch k e.kind then
      Res.popAfter (runStmt hb (s.pushH e))
    else
      dispatchH rest e s

end

/-- Modelled from the spec: a GeneratorObject wrapping a frame with its
lifecycle state (spec section 3); a created generator holds its
still-unstarted code, a suspended one holds the continuation of its frame,
and CLOSED is terminal. -/
inductive GenObj where
  | created (code : Stmt)
  | suspended (k : Resume → St → Res)
  | closed

/-- The outcome of one advance of a generator, as seen by the caller of
next or throw: a yielded value, a StopIteration carrying the optional
return value, or a propagated exception. -/
inductive NextRes where
  | yielded (v : Int)
  | stop (v : Option Int)
  | excOut (e : Exc)
deriving DecidableEq, Repr

/-- Turn the StepResult of a frame advance into the caller-visible result
and the next lifecycle state: a return becomes StopIteration and the
generator is CLOSED, an unhandled exception propagates and the generator
is CLOSED, a yield suspends (spec sections 3 and 4.2). -/
def classify : Res → St × GenObj × NextRes
  | .done s o => (s, .closed, .stop (outcomeVal o))
  | .raised s e => (s, .closed, .excOut e)
  | .yld s v k => (s, .suspended k, .yielded v)

/-- Modelled from the spec: next() advances the frame once; on a CLOSED
generator it raises StopIteration immediately without stepping (spec
section 4.2). -/
def GenObj.nextOp : GenObj → St → St × GenObj × NextRes
  | .created code, s => classify (runStmt code s)
  | .suspended k, s => classify (k .nxt s)
  | .closed, s => (s, .closed, .stop none)

/-- Modelled from the spec: throw(exc) on a CREATED generator closes it and
propagates exc without entering the body; on a SUSPENDED generator the
exception is injected at the suspension point (spec section 4.2). -/
def GenObj.throwOp : GenObj → Exc → St → St × GenObj × NextRes
  | .created _, e, s => (s, .closed, .excOut e)
  | .suspended k, e, s => classify (k (.thr e) s)
  | .closed, e, s => (s, .closed, .excOut e)

/-- The caller-visible outcome of close(): a clean close carrying the value
the generator returned while handling the exit (none when no value), the
ignored-exit error, or a propagated exception. -/
inductive CloseRes where
  | ok (v : Option Int)
  | ignoredExit
  | excOut (e : Exc)
deriving DecidableEq, Repr

def isCleanExit (k : ExcKind) : Bool :=
  k == .generatorExit || k == .stopIteration

/-- Modelled from the spec: close() is a no-op on a CLOSED generator,
closes a CREATED one without running its body, and otherwise injects a
GeneratorExit at the suspension point: GeneratorExit or StopIteration
(including falling off the end) is a clean close returning the value the
generator returned while handling the exit, any other exception propagates
with the generator still CLOSED, and a further yield is the ignored-exit
error (spec section 4.2). -/
def GenObj.closeOp : GenObj → St → St × GenObj × CloseRes
  | .closed, s => (s, .closed, .ok none)
  | .created _, s => (s, .closed, .ok none)
  | .suspended k, s =>
    let e := mkExc s.nextEid .generatorExit
    let s1 := { s with nextEid := s.nextEid + 1 }
    match k (.thr e) s1 with
    | .done s2 o => (s2, .closed, .ok (outcomeVal o))
    | .raised s2 e2 =>
      if isCleanExit e2.kind then (s2, .closed, .ok none)
      else (s2, .closed, .excOut e2)
    | .yld s2 _ k2 => (s2, .suspended k2, .ignoredExit)

/-- How an iteration of a generator ended: normal exhaustion with the
StopIteration payload, an escaped exception, or out of fuel (the generator
did not finish within the allotted number of steps). -/
inductive IterEnd where
  | finished (s : St) (v : Option Int)
  | errored (s : St) (e : Exc)
  | fuelOut
deriving DecidableEq, Repr

/-- Iterate a frame resumption, collecting the yielded values in order,
resuming with a plain advance each time, until the frame finishes or the
fuel runs out (the iteration form of spec section 4.2). -/
def resIter : Nat → Res → List Int × IterEnd
  | _, .done s o => ([], .finished s (outcomeVal o))
  | _, .raised s e => ([], .errored s e)
  | 0, .yld _ _ _ => ([], .fuelOut)
  | fuel + 1, .yld s v k =>
    let p := resIter fuel (k .nxt s)
    (v :: p.1, p.2)

/-- Convert a generator to the list of all its yielded values (the
list/tuple/dict conversion of the iteration protocol). -/
def genList (fuel : Nat) (code : Stmt) (s : St) : List Int × IterEnd :=
  resIter fuel (runStmt code s)

/-- Modelled from the spec: iterating under tracing; every
trace-compatible step proceeds like a native step and the yielded value is
additionally recorded as a symbolic value in the graph being built (spec
sections 4.5 and 8). -/
def tresIter : Nat → List Int → Res → List Int × List Int × IterEnd
  | _, g, .done s o => (g, [], .finished s (outcomeVal o))
  | _, g, .raised s e => (g, [], .errored s e)
  | 0, g, .yld _ _ _ => (g, [], .fuelOut)
  | fuel + 1, g, .yld s v k =>
    let p := tresIter fuel (g ++ [v]) (k .nxt s)
    (p.1, v :: p.2.1, p.2.2)

/-- Convert a generator to a list under tracing, recording every yielded
value into the graph. -/
def tgenList (fuel : Nat) (code : Stmt) (s : St) :
    List Int × List Int × IterEnd :=
  tresIter fuel [] (runStmt code s)

/-- Pair the first k yielded values of a generator with 0, 1, 2, ...: the
model of zipping the generator against a finite range, which advances the
generator exactly k times (or fewer if it finishes first). -/
def zipConsume : Nat → GenObj → St → St × GenObj × List Int
  | 0, g, s => (s, g, [])
  | n + 1, g, s =>
    match GenObj.nextOp g s with
    | (s2, g2, .yielded v) =>
      let p := zipConsume n g2 s2
      (p.1, p.2.1, v :: p.2.2)
    | (s2, g2, _) => (s2, g2, [])

/-- Zipping a generator against a finite range under tracing: the same
stepping, with each yielded value also recorded in the graph. -/
def tzipConsume : Nat → List Int → GenObj → St → St × GenObj × List Int × List Int
  | 0, g, go, s => (s, go, g, [])
  | n + 1, g, go, s =>
    match GenObj.nextOp go s with
    | (s2, go2, .yielded v) =>
      let p := tzipConsume n (g ++ [v]) go2 s2
      (p.1, p.2.1, p.2.2.1, v :: p.2.2.2)
    | (s2, go2, _) => (s2, go2, g, [])

/-- Advance a generator a times under tracing, recording the yielded
values in the graph (the model of stepping a generator inside a traced
function and then returning it to the caller), and finally perform one
native next() call on the generator in the state it was left in; the
result is the recorded graph and that last native result. -/
def traceAdvanceProbe : Nat → List Int → GenObj → St → List Int × NextRes
  | 0, g, go, s => (g, (GenObj.nextOp go s).2.2)
  | n + 1, g, go, s =>
    match GenObj.nextOp go s with
    | (s2, go2, .yielded v) => traceAdvanceProbe n (g ++ [v]) go2 s2
    | (_, _, r) => (g, r)

/-- The results of n successive native next() calls on a generator. -/
def outN : Nat → GenObj → St → List NextRes
  | 0, _, _ => []
  | n + 1, g, s =>
    match GenObj.nextOp g s with
    | (s2, g2, r) => r :: outN n g2 s2

/-- Modelled from the spec: replaying the side-effect log applies the
logged mutations to the real cells in their recorded ordinal order,
exactly once (spec sections 3 and 5). -/
def replaySE (log : List SEEntry) (cs : List Int) : List Int :=
  log.foldl (fun acc e => acc.set e.target e.newVal) cs

/-- An argument of a function being compiled: a traceable tensor-like
value, or a generator object. -/
inductive TArg where
  | tensor (v : Int)
  | genArg (g : GenObj)

def TArg.isGen : TArg → Bool
  | .tensor _ => false
  | .genArg _ => true

/-- The error message of the tracing-incompatibility condition raised for
a generator given as a graph input. -/
def genArgMsg : String := "Generator as graph argument is not supported"

/-- Modelled from the spec: every generator object passed as a direct input
to a function being traced is unconditionally rejected with the
"generator as graph argument is not supported" condition, regardless of
the state of the generator; the internal frame state of a generator
cannot be captured as a graph input (spec sections 4.5 and 8). -/
def checkGraphArgs : List TArg → Except String Unit
  | [] => .ok ()
  | .tensor _ :: rest => checkGraphArgs rest
  | .genArg _ :: _ => .error genArgMsg

/-- A generator body that yields the given values in order and then
finishes. -/
def yieldsOf : List Int → Stmt
  | [] => .skip
  | v :: t => .seq (.yieldV v) (yieldsOf t)

/-- An outer generator delegating entirely to a sub-generator and then
yielding one extra value. -/
def outerCode (sub : Stmt) (extra : Int) : Stmt :=
  .seq (.yieldFrom sub) (.yieldV extra)

/-- A sub-generator yielding the given values, with a finally block
emitting a cleanup marker. -/
def subWithCleanup (vs : List Int) (mark : Int) : Stmt :=
  .tryCF (yieldsOf vs) .hnil (.emit mark)

/-- The close-ordering scenario: the outer generator delegates to a
sub-generator whose cleanup emits marker a, then yields one extra value,
all inside a finally emitting marker b. -/
def outerWithCleanup (vs : List Int) (a b extra : Int) : Stmt :=
  .tryCF (.seq (.yieldFrom (subWithCleanup vs a)) (.yieldV extra)) .hnil
    (.emit b)

/-- A generator that catches the GeneratorExit injected by close() and
returns a value from the except clause, with side-effect counters
mirroring TestGeneratorClose.test_close_capture_GeneratorExit_return. -/
def closeRetCode (v : Option Int) (a b : Int) : Stmt :=
  .tryCF (.seq (.incr 0 1) (.seq (.yieldV a) (.yieldV b)))
    (.hcons (.exactK .generatorExit) (.seq (.incr 0 10) (.retV v)) .hnil)
    (.incr 0 100)

/-- A generator that does not catch GeneratorExit and has a return after
its yield, mirroring GeneratorCloseCPythonTests.test_close_not_catching_exit. -/
def fallOffCode (a : Int) : Stmt :=
  .seq (.yieldV a) (.retV (some 0))

/-- A generator that swallows GeneratorExit and then raises RuntimeError,
mirroring GeneratorCloseCPythonTests.test_close_raises. -/
def closeRaiseCode (a : Int) : Stmt :=
  .seq
    (.tryCF (.yieldV a) (.hcons (.exactK .generatorExit) .skip .hnil) .skip)
    (.raiseNew .runtimeError)

/-- A generator that answers the GeneratorExit injected by close() with a
further yield, mirroring TestGeneratorClose.test_close_capture_GeneratorExit. -/
def ignoreExitCode (a b c : Int) : Stmt :=
  .tryCF (.seq (.yieldV a) (.yieldV b))
    (.hcons (.exactK .generatorExit) (.yieldV c) .hnil)
    .skip

/-- A try/finally wrapping yield points, with an except clause for
ValueError and a finally block counting its executions in cell 0. -/
def finOnceCode (a b : Int) : Stmt :=
  .tryCF (.seq (.yieldV a) (.yieldV b))
    (.hcons (.exactK .valueError) .skip .hnil)
    (.incr 0 1)

/-- The context-cycle scenario of
GeneratorThrowCpythonTests.test_exception_context_with_yield_from_with_context_cycle:
raise a given exception, and while handling it delegate to a one-yield
sub-generator; when the same exception object is later thrown in, the
inner except observes whether the caught exception is its own context,
storing the observation in cell 0. -/
def cycleCode (e : Exc) : Stmt :=
  .seq
    (.tryCF (.raiseObj e)
      (.hcons .anyExc
        (.tryCF (.yieldFrom (.yieldV 0))
          (.hcons .anyExc (.storeCycle 0) .hnil)
          .skip)
        .hnil)
      .skip)
    (.yieldV 0)

/-- A generator that raises a fresh RuntimeError from inside the except
clause handling a thrown ValueError, with the side-effect counters of
TestGeneratorThrow.test_throw_raise_difference_exc in cell 0. -/
def chainCode (a : Int) : Stmt :=
  .tryCF (.seq (.incr 0 1) (.yieldV a))
    (.hcons (.exactK .valueError)
      (.seq (.incr 0 10) (.raiseNew .runtimeError)) .hnil)
    (.incr 0 100)

/-- Advance a freshly created generator once, then close it. -/
def nextThenClose (code : Stmt) (s : St) : St × GenObj × CloseRes :=
  let p := GenObj.nextOp (.created code) s
  GenObj.closeOp p.2.1 p.1

/-- Advance a freshly created generator once, then throw the given
exception into it. -/
def nextThenThrow (code : Stmt) (e : Exc) (s : St) : St × GenObj × NextRes :=
  let p := GenObj.nextOp (.created code) s
  GenObj.throwOp p.2.1 e p.1

/-- Advance a freshly created generator once, close it, and close it a
second time; the result carries the final state of the second close and
the caller-visible results of both closes. -/
def nextThenCloseTwice (code : Stmt) (s : St) :
    (St × GenObj × CloseRes) × CloseRes :=
  let p := GenObj.nextOp (.created code) s
  let q := GenObj.closeOp p.2.1 p.1
  (GenObj.closeOp q.2.1 q.1, q.2.2)

/-- The cells of the state in which an iteration ended. -/
def iterEndCells : IterEnd → List Int
  | .finished s _ => s.cells
  | .errored s _ => s.cells
  | .fuelOut => []

/-- One iteration of the counter generator: increment the captured counter
in cell 0, then yield. -/
def cntIter (j : Int) : Stmt := .seq (.incr 0 1) (.yieldV j)

/-- The counter generator of the side-effect scenario: its first three
iterations increment the captured counter once per yield; the rest of the
body is arbitrary, covering in particular the unbounded generator. -/
def cntCode (rest : Stmt) : Stmt :=
  .seq (cntIter 0) (.seq (cntIter 1) (.seq (cntIter 2) rest))

/-- Iterating one step of a generator that yields v and then behaves like
the generator of the remaining values. -/
theorem resIter_yields_step (n : Nat) (v : Int) (t : List Int) (s : St) :
    resIter (n + 1) (runStmt (yieldsOf (v :: t)) s)
      = (v :: (resIter n (runStmt (yieldsOf t) s)).1,
         (resIter n (runStmt (yieldsOf t) s)).2) := rfl

/-- The reference sequence: iterating the embedded generator of a finite
list of yield values produces exactly that list and finishes cleanly. -/
theorem resIter_yieldsOf : ∀ (vs : List Int) (s : St),
    resIter (vs.length + 1) (runStmt (yieldsOf vs) s) = (vs, .finished s none)
  | [], _ => rfl
  | v :: t, s => by
    have ih := resIter_yieldsOf t s
    show (v :: (resIter (t.length + 1) (runStmt (yieldsOf t) s)).1,
          (resIter (t.length + 1) (runStmt (yieldsOf t) s)).2)
      = (v :: t, .finished s none)
    rw [ih]

/-- Iterating one step of the delegating generator: the first yield of the
sub-generator is re-exposed, and the remaining iteration behaves like the
delegating generator over the remaining sub-generator values. -/
theorem resIter_outer_step (n : Nat) (v : Int) (t : List Int) (extra : Int)
    (s : St) :
    resIter (n + 1) (runStmt (outerCode (yieldsOf (v :: t)) extra) s)
      = (v :: (resIter n (runStmt (outerCode (yieldsOf t) extra) s)).1,
         (resIter n (runStmt (outerCode (yieldsOf t) extra) s)).2) := rfl

/-- Iterating the delegating generator yields the sub-generator values
followed by the extra value. -/
theorem resIter_outer : ∀ (vs : List Int) (extra : Int) (s : St),
    resIter (vs.length + 2) (runStmt (outerCode (yieldsOf vs) extra) s)
      = (vs ++ [extra], .finished s none)
  | [], _, _ => rfl
  | v :: t, extra, s => by
    have ih := resIter_outer t extra s
    show (v :: (resIter (t.length + 2) (runStmt (outerCode (yieldsOf t) extra) s)).1,
          (resIter (t.length + 2) (runStmt (outerCode (yieldsOf t) extra) s)).2)
      = (v :: t ++ [extra], .finished s none)
    rw [ih]
    rfl

/-- Tracing an iteration performs the same native steps, additionally
recording every yielded value into the graph. -/
theorem tresIter_eq : ∀ (fuel : Nat) (g : List Int) (r : Res),
    tresIter fuel g r
      = (g ++ (resIter fuel r).1, (resIter fuel r).1, (resIter fuel r).2) := by
  intro fuel
  induction fuel with
  | zero =>
    intro g r
    cases r with
    | done s o => simp [tresIter, resIter]
    | raised s e => simp [tresIter, resIter]
    | yld s v k => simp [tresIter, resIter]
  | succ n ih =>
    intro g r
    cases r with
    | done s o => simp [tresIter, resIter]
    | raised s e => simp [tresIter, resIter]
    | yld s v k =>
      simp only [tresIter, resIter, ih (g ++ [v]) (k .nxt s)]
      simp [List.append_assoc]

/-- Tracing a zip against a finite range performs the same native steps,
additionally recording every yielded value into the graph. -/
theorem tzipConsume_eq : ∀ (n : Nat) (g : List Int) (go : GenObj) (s : St),
    tzipConsume n g go s
      = ((zipConsume n go s).1, (zipConsume n go s).2.1,
         g ++ (zipConsume n go s).2.2, (zipConsume n go s).2.2)
  | 0, g, go, s => by simp [tzipConsume, zipConsume]
  | n + 1, g, go, s => by
    rcases hh : GenObj.nextOp go s with ⟨s2, g2, r⟩
    cases r with
    | yielded v =>
      simp only [tzipConsume, zipConsume, hh, tzipConsume_eq n (g ++ [v]) g2 s2]
      simp [List.append_assoc]
    | stop w => simp [tzipConsume, zipConsume, hh]
    | excOut e => simp [tzipConsume, zipConsume, hh]

/-- Advancing a generator of a value list one step under tracing records
the first value and continues as the generator of the remaining values. -/
theorem probe_yields_step (n : Nat) (g : List Int) (v : Int)
    (t : List Int) (s : St) :
    traceAdvanceProbe (n + 1) g (.created (yieldsOf (v :: t))) s
      = traceAdvanceProbe n (g ++ [v]) (.created (yieldsOf t)) s := by
  cases n <;> rfl

/-- After advancing the generator of a value list a times under tracing,
the graph holds the first a values and the next native call yields the
value at the advancement position, or StopIteration when exhausted. -/
theorem probe_aux : ∀ (vs : List Int) (a : Nat) (g : List Int)
    (s : St), a ≤ vs.length →
    traceAdvanceProbe a g (.created (yieldsOf vs)) s
      = (g ++ vs.take a,
         if a < vs.length then .yielded (vs.getD a 0) else .stop none) := by
  intro vs a
  induction a generalizing vs with
  | zero =>
    intro g s _
    cases vs with
    | nil => simp [traceAdvanceProbe]; rfl
    | cons v t => simp [traceAdvanceProbe]; rfl
  | succ a ih =>
    intro g s h
    cases vs with
    | nil => simp at h
    | cons v t =>
      rw [probe_yields_step]
      have h2 : a ≤ t.length := by simpa using h
      rw [ih t (g ++ [v]) s h2]
      simp [List.take_succ_cons, Nat.succ_lt_succ_iff, List.getD_cons_succ,
        List.append_assoc]

/-- C1: for every finite generator, the sequence of values obtained by
iterating it under tracing, including the conversion to list, tuple or
dict and zipping with a finite range, equals the sequence produced by
unconditionally native stepping of an equivalent reference
implementation: a traced iteration takes the same steps as the native one
and only additionally records each yielded value as a symbolic graph
value, and on the embedded generator of any finite value list both
produce exactly that list. -/
theorem c1_traced_iteration_refines_native :
    (∀ (fuel : Nat) (g : List Int) (r : Res),
        tresIter fuel g r
          = (g ++ (resIter fuel r).1, (resIter fuel r).1, (resIter fuel r).2))
    ∧ (∀ (vs : List Int) (s : St),
        tgenList (vs.length + 1) (yieldsOf vs) s = (vs, vs, .finished s none))
    ∧ (∀ (n : Nat) (go : GenObj) (s : St),
        tzipConsume n [] go s
          = ((zipConsume n go s).1, (zipConsume n go s).2.1,
             (zipConsume n go s).2.2, (zipConsume n go s).2.2)) := by
  refine ⟨tresIter_eq, ?_, ?_⟩
  · intro vs s
    show tresIter (vs.length + 1) [] (runStmt (yieldsOf vs) s) = _
    rw [tresIter_eq, resIter_yieldsOf]
    rfl
  · intro n go s
    simpa using tzipConsume_eq n [] go s

/-- C2: every generator object given as a direct input to a function being
traced is rejected with the generator-as-graph-argument condition,
whatever its position among the arguments and whatever its lifecycle
state, and the check never succeeds instead. -/
theorem c2_generator_graph_argument_rejected :
    ∀ (pre : List TArg) (g : GenObj) (post : List TArg),
      (∀ x ∈ pre, x.isGen = false) →
      checkGraphArgs (pre ++ .genArg g :: post) = .error genArgMsg := by
  intro pre
  induction pre with
  | nil => intro g post _; rfl
  | cons x t ih =>
    intro g post h
    cases x with
    | tensor v => exact ih g post (fun y hy => h y (List.mem_cons_of_mem _ hy))
    | genArg g2 => rfl

/-- Witness for C2: a mixed argument list holding a partially advanced, a
fresh and an exhausted generator behind one tensor argument is rejected. -/
theorem c2_generator_graph_argument_rejected_witness :
    checkGraphArgs
        ([.tensor 0]
          ++ .genArg ((GenObj.nextOp (.created (yieldsOf [1, 2])) (mkSt [])).2.1)
            :: [.genArg (.created (yieldsOf [1])), .genArg .closed])
      = .error genArgMsg :=
  c2_generator_graph_argument_rejected [.tensor 0]
    ((GenObj.nextOp (.created (yieldsOf [1, 2])) (mkSt [])).2.1)
    [.genArg (.created (yieldsOf [1])), .genArg .closed]
    (by
      intro x hx
      rw [List.mem_singleton] at hx
      subst hx
      rfl)

/-- C3: an outer generator delegating to a sub-generator and then yielding
one extra value yields exactly the sub-generator values followed by the
extra value; and closing the outer generator after consuming one value
runs the sub-generator cleanup (marker a) before the outer cleanup
(marker b), finishing as a clean close. -/
theorem c3_delegation_transparent_and_cleanup_ordered :
    (∀ (vs : List Int) (extra : Int) (s : St),
        resIter (vs.length + 2) (runStmt (outerCode (yieldsOf vs) extra) s)
          = (vs ++ [extra], .finished s none))
    ∧ (∀ (v extra : Int) (vs : List Int) (a b : Int),
        (GenObj.nextOp (.created (outerWithCleanup (v :: vs) a b extra))
            (mkSt [])).2.2 = .yielded v
        ∧ (nextThenClose (outerWithCleanup (v :: vs) a b extra) (mkSt [])).2.2
            = .ok none
        ∧ (nextThenClose (outerWithCleanup (v :: vs) a b extra)
            (mkSt [])).1.events = [a, b]) :=
  ⟨resIter_outer, fun _ _ _ _ _ => ⟨rfl, rfl, rfl⟩⟩

/-- C4: close() injects a GeneratorExit at the suspension point; a
generator catching it and returning v makes close() return v with the
generator CLOSED (and its finally having also run, the counters adding to
111); a generator not catching it is closed cleanly with no value even
though it has a later return; and a generator raising another exception
while handling the exit propagates that exception to the caller of
close() with the generator still CLOSED. -/
theorem c4_close_clean_or_propagates :
    (∀ (v : Option Int) (a b : Int),
        (nextThenClose (closeRetCode v a b) (mkSt [0])).2.2 = .ok v
        ∧ (nextThenClose (closeRetCode v a b) (mkSt [0])).2.1 = .closed
        ∧ (nextThenClose (closeRetCode v a b) (mkSt [0])).1.cells = [111])
    ∧ (∀ (a : Int),
        (nextThenClose (fallOffCode a) (mkSt [])).2.2 = .ok none
        ∧ (nextThenClose (fallOffCode a) (mkSt [])).2.1 = .closed)
    ∧ (∀ (a : Int),
        (nextThenClose (closeRaiseCode a) (mkSt [])).2.2
          = .excOut (mkExc 1 .runtimeError)
        ∧ (nextThenClose (closeRaiseCode a) (mkSt [])).2.1 = .closed) :=
  ⟨fun _ _ _ => ⟨rfl, rfl, rfl⟩, fun _ => ⟨rfl, rfl⟩, fun _ => ⟨rfl, rfl⟩⟩

/-- C5: close() is idempotent: whenever a close() completed cleanly the
generator is CLOSED, and a second close() returns no value, raises
nothing, and leaves the state untouched. -/
theorem c5_close_idempotent :
    ∀ (g : GenObj) (s : St) (v : Option Int),
      (GenObj.closeOp g s).2.2 = .ok v →
      (GenObj.closeOp g s).2.1 = .closed
      ∧ GenObj.closeOp (GenObj.closeOp g s).2.1 (GenObj.closeOp g s).1
          = ((GenObj.closeOp g s).1, .closed, .ok none) := by
  intro g s v h
  cases g with
  | closed => exact ⟨rfl, rfl⟩
  | created code => exact ⟨rfl, rfl⟩
  | suspended k =>
    rcases hr : k (.thr (mkExc s.nextEid .generatorExit))
        { s with nextEid := s.nextEid + 1 } with _ | _ | _
    · simp [GenObj.closeOp, hr]
    · simp only [GenObj.closeOp, hr] at h ⊢
      split <;> simp [GenObj.closeOp]
    · simp [GenObj.closeOp, hr] at h

/-- Witness for C5: after one clean close of a suspended generator with a
try/finally, a second close is a no-op returning no value. -/
theorem c5_close_idempotent_witness :
    (GenObj.closeOp
        ((GenObj.nextOp (.created (finOnceCode 1 2)) (mkSt [0])).2.1)
        ((GenObj.nextOp (.created (finOnceCode 1 2)) (mkSt [0])).1)).2.1
      = .closed
    ∧ GenObj.closeOp
        (GenObj.closeOp
          ((GenObj.nextOp (.created (finOnceCode 1 2)) (mkSt [0])).2.1)
          ((GenObj.nextOp (.created (finOnceCode 1 2)) (mkSt [0])).1)).2.1
        (GenObj.closeOp
          ((GenObj.nextOp (.created (finOnceCode 1 2)) (mkSt [0])).2.1)
          ((GenObj.nextOp (.created (finOnceCode 1 2)) (mkSt [0])).1)).1
      = ((GenObj.closeOp
          ((GenObj.nextOp (.created (finOnceCode 1 2)) (mkSt [0])).2.1)
          ((GenObj.nextOp (.created (finOnceCode 1 2)) (mkSt [0])).1)).1,
          .closed, .ok none) :=
  c5_close_idempotent
    ((GenObj.nextOp (.created (finOnceCode 1 2)) (mkSt [0])).2.1)
    ((GenObj.nextOp (.created (finOnceCode 1 2)) (mkSt [0])).1)
    none rfl

/-- C6: a generator that answers the GeneratorExit injected by close()
with a further yield makes close() fail with the ignored-exit condition,
not a yielded value and not a silent clean close. -/
theorem c6_ignored_exit_is_error :
    ∀ (a b c : Int),
      (GenObj.nextOp (.created (ignoreExitCode a b c)) (mkSt [])).2.2
        = .yielded a
      ∧ (nextThenClose (ignoreExitCode a b c) (mkSt [])).2.2 = .ignoredExit :=
  fun _ _ _ => ⟨rfl, rfl⟩

/-- C7: the finally block of a try/finally wrapping yield points runs
exactly once per generator lifetime (the counter cell ends at exactly 1):
under full exhaustion, under an exception delivered by throw() that the
except clause absorbs so the generator ends in StopIteration, and under
close() followed by a second close(). -/
theorem c7_finally_runs_exactly_once :
    ∀ (a b : Int),
      ((genList 3 (finOnceCode a b) (mkSt [0])).1 = [a, b]
        ∧ iterEndCells (genList 3 (finOnceCode a b) (mkSt [0])).2 = [1])
      ∧ ((nextThenThrow (finOnceCode a b) (mkExc 500 .valueError)
            (mkSt [0])).2.2 = .stop none
        ∧ (nextThenThrow (finOnceCode a b) (mkExc 500 .valueError)
            (mkSt [0])).1.cells = [1])
      ∧ ((nextThenCloseTwice (finOnceCode a b) (mkSt [0])).2 = .ok none
        ∧ (nextThenCloseTwice (finOnceCode a b) (mkSt [0])).1.2.2 = .ok none
        ∧ (nextThenCloseTwice (finOnceCode a b) (mkSt [0])).1.1.cells = [1]) :=
  fun _ _ => ⟨⟨rfl, rfl⟩, ⟨rfl, rfl⟩, rfl, rfl, rfl⟩

/-- C8: exception context chains never become self-referential: chaining a
fresh exception onto a handled one never makes it its own context; when
the same exception object the generator is handling is thrown back in
through a delegation, the observed context link is absent (the cycle cell
records 0, not 1); and raising a different exception from inside an except
clause chains it onto the handled one (the propagated RuntimeError carries
the handled ValueError as context). -/
theorem c8_context_chain_acyclic :
    (∀ (i : Nat) (k : ExcKind) (h : Exc),
        selfCtx (chainWith (mkExc i k) h) = false)
    ∧ ((nextThenThrow (cycleCode (mkExc 77 .keyError)) (mkExc 77 .keyError)
          (mkSt [5])).2.2 = .yielded 0
      ∧ (nextThenThrow (cycleCode (mkExc 77 .keyError)) (mkExc 77 .keyError)
          (mkSt [5])).1.cells = [0])
    ∧ (∀ (a : Int),
        (nextThenThrow (chainCode a) (mkExc 500 .valueError) (mkSt [0])).2.2
          = .excOut ⟨0, .runtimeError, [(500, .valueError)]⟩
        ∧ (nextThenThrow (chainCode a) (mkExc 500 .valueError)
            (mkSt [0])).1.cells = [111]) := by
  refine ⟨?_, ⟨rfl, rfl⟩, fun _ => ⟨rfl, rfl⟩⟩
  intro i k h
  by_cases hh : i = h.eid
  · simp [chainWith, mkExc, Exc.ctx, hh, selfCtx]
  · simp [chainWith, mkExc, Exc.ctx, hh, selfCtx, Exc.setCtx]
    exact fun h2 => hh h2.symm

/-- C9: the counter generator increments its captured cell once per yield;
consuming exactly three values by zipping against a fixed range of length
three leaves the counter at exactly 3, whatever the rest of the generator
body is (in particular for an unbounded one); the side-effect log holds
exactly the three increments in order, replaying it onto the initial
cells applies them exactly once and reproduces the final cells, and the
traced run takes the same steps recording the same three values. -/
theorem c9_side_effect_counter_exact :
    ∀ (rest : Stmt),
      (zipConsume 3 (.created (cntCode rest)) (mkSt [0])).2.2 = [0, 1, 2]
      ∧ (zipConsume 3 (.created (cntCode rest)) (mkSt [0])).1.cells = [3]
      ∧ (zipConsume 3 (.created (cntCode rest)) (mkSt [0])).1.selog
          = [⟨0, 0, 1⟩, ⟨0, 1, 2⟩, ⟨0, 2, 3⟩]
      ∧ replaySE (zipConsume 3 (.created (cntCode rest)) (mkSt [0])).1.selog
          [0] = [3]
      ∧ (tzipConsume 3 [] (.created (cntCode rest)) (mkSt [0])).2.2.2
          = [0, 1, 2]
      ∧ (tzipConsume 3 [] (.created (cntCode rest)) (mkSt [0])).1.cells
          = [3] :=
  fun _ => ⟨rfl, rfl, rfl, rfl, rfl, rfl⟩

/-- C10: a generator advanced a times inside a traced function and then
returned continues outside from exactly the advancement position: the
trace recorded the first a values, and the next native call yields the
value at position a, or raises StopIteration when the generator was
already exhausted inside the trace. -/
theorem c10_returned_generator_resumes :
    ∀ (vs : List Int) (a : Nat) (s : St), a ≤ vs.length →
      traceAdvanceProbe a [] (.created (yieldsOf vs)) s
        = (vs.take a,
           if a < vs.length then .yielded (vs.getD a 0) else .stop none) := by
  intro vs a s h
  simpa using probe_aux vs a [] s h

/-- Witness for C10: advancing the three-value generator once inside the
trace and resuming outside yields the second value. -/
theorem c10_returned_generator_resumes_witness :
    traceAdvanceProbe 1 [] (.created (yieldsOf [1, 2, 3])) (mkSt [])
      = (([1, 2, 3] : List Int).take 1,
         if 1 < ([1, 2, 3] : List Int).length then
           .yielded (([1, 2, 3] : List Int).getD 1 0)
         else .stop none) :=
  c10_returned_generator_resumes [1, 2, 3] 1 (mkSt []) (by simp)

end PyGen
